import Mathlib

/-
  Verification of the PLSS Grid & Lot-Resolution Engine of pyTRSplat.

  The engine modules themselves (grid, lot definitions, plat queues, plat)
  are not present in the available sources; only their documentation,
  readmes and GUI callers are.  Accordingly every definition below is
  modelled from the specification of the engine (spec.md sections 3 and 4
  together with the repository documentation), faithful to its words.
-/

/-- Modelled from the spec: the 16 canonical quarter-quarter (QQ) cell names
of a section (spec section 3, coordinate system).  The grid module that would
define these names is missing from the sources. -/
inductive QQ where
  | NENE | NWNE | NENW | NWNW
  | SENE | SWNE | SENW | SWNW
  | NESE | NWSE | NESW | NWSW
  | SESE | SWSE | SESW | SWSW
  deriving DecidableEq, Repr, Fintype

/-- Modelled from the spec: a quarter-direction token NE / NW / SE / SW
of the aliquot grammar (spec section 4.1). -/
inductive Quar where
  | ne | nw | se | sw
  deriving DecidableEq, Repr

/-- Modelled from the spec: a half token N2 / S2 / E2 / W2 of the aliquot
grammar (spec section 4.1). -/
inductive HalfTok where
  | n | s | e | w
  deriving DecidableEq, Repr

/-- Modelled from the spec: one lexical token of an aliquot term. -/
inductive AliqTok where
  | quar (q : Quar)
  | half (h : HalfTok)
  deriving DecidableEq, Repr

/-- Modelled from the spec: the QQ cell named by a quarter-quarter position
inside a quarter (first component) and the quarter itself (second component),
e.g. NE of NW is NENW. -/
def qqOfQuarters : Quar → Quar → QQ
  | .ne, .ne => .NENE
  | .nw, .ne => .NWNE
  | .se, .ne => .SENE
  | .sw, .ne => .SWNE
  | .ne, .nw => .NENW
  | .nw, .nw => .NWNW
  | .se, .nw => .SENW
  | .sw, .nw => .SWNW
  | .ne, .se => .NESE
  | .nw, .se => .NWSE
  | .se, .se => .SESE
  | .sw, .se => .SWSE
  | .ne, .sw => .NESW
  | .nw, .sw => .NWSW
  | .se, .sw => .SESW
  | .sw, .sw => .SWSW

/-- Modelled from the spec: the four QQ cells constituting one quarter of a
section (spec section 4.1, bare quarter expansion). -/
def quarterCells (q : Quar) : List QQ :=
  [qqOfQuarters .ne q, qqOfQuarters .nw q, qqOfQuarters .se q, qqOfQuarters .sw q]

/-- Modelled from the spec: the two QQ cells forming the named half of the
named quarter (spec section 4.1, half-of-quarter expansion). -/
def halfOfQuarter (h : HalfTok) (q : Quar) : List QQ :=
  match h with
  | .n => [qqOfQuarters .ne q, qqOfQuarters .nw q]
  | .s => [qqOfQuarters .se q, qqOfQuarters .sw q]
  | .e => [qqOfQuarters .ne q, qqOfQuarters .se q]
  | .w => [qqOfQuarters .nw q, qqOfQuarters .sw q]

/-- Modelled from the spec: the eight QQ cells forming the named half of the
whole section (spec section 4.1, bare half-of-section expansion). -/
def halfOfSection (h : HalfTok) : List QQ :=
  match h with
  | .n => quarterCells .ne ++ quarterCells .nw
  | .s => quarterCells .se ++ quarterCells .sw
  | .e => quarterCells .ne ++ quarterCells .se
  | .w => quarterCells .nw ++ quarterCells .sw

/-- Modelled from the spec: lexing of one two-character aliquot token. -/
def tokOf : Char → Char → Option AliqTok
  | 'N', 'E' => some (.quar .ne)
  | 'N', 'W' => some (.quar .nw)
  | 'S', 'E' => some (.quar .se)
  | 'S', 'W' => some (.quar .sw)
  | 'N', '2' => some (.half .n)
  | 'S', '2' => some (.half .s)
  | 'E', '2' => some (.half .e)
  | 'W', '2' => some (.half .w)
  | _, _ => none

/-- Modelled from the spec: lexing an aliquot term into its tokens; any
unrecognized pair (or odd length) is a decode failure (spec section 4.1,
failure clause). -/
def tokenize : List Char → Option (List AliqTok)
  | [] => some []
  | [_] => none
  | a :: b :: rest =>
    match tokOf a b, tokenize rest with
    | some t, some ts => some (t :: ts)
    | _, _ => none

/-- Modelled from the spec: expansion of one aliquot term into a set of QQ
cells (spec section 4.1): ALL gives all 16, a bare quarter its 4 cells, a
full QQ token itself, a bare half 8 cells, a half-of-quarter 2 cells;
anything else is a decode error. -/
def decodeTerm (t : List Char) : Option (Finset QQ) :=
  if t = ['A', 'L', 'L'] then some Finset.univ
  else
    match tokenize t with
    | some [AliqTok.quar q] => some (quarterCells q).toFinset
    | some [AliqTok.quar q1, AliqTok.quar q2] => some {qqOfQuarters q1 q2}
    | some [AliqTok.half h] => some (halfOfSection h).toFinset
    | some [AliqTok.half h, AliqTok.quar q] => some (halfOfQuarter h q).toFinset
    | _ => none

/-- Splitting a character list at commas into term character lists. -/
def splitComma : List Char → List (List Char)
  | [] => [[]]
  | c :: rest =>
    if c = ',' then [] :: splitComma rest
    else
      match splitComma rest with
      | [] => [[c]]
      | t :: ts => (c :: t) :: ts

/-- Mapping a fallible function over a list, failing if any element fails. -/
def mapOption (f : α → Option β) : List α → Option (List β)
  | [] => some []
  | a :: as =>
    match f a, mapOption f as with
    | some b, some bs => some (b :: bs)
    | _, _ => none

/-- Modelled from the spec: the aliquot decomposer (spec section 4.1).  The
input is a comma-separated list of aliquot terms; the result is the
idempotent set union of the per-term expansions, or a decode error if any
term is malformed. -/
def decompose (s : String) : Option (Finset QQ) :=
  match mapOption decodeTerm (splitComma s.data) with
  | some sets => some (sets.foldr (fun a b => a ∪ b) ∅)
  | none => none

/-- Lookup in an association list, first binding wins. -/
def lookupAL [DecidableEq α] : List (α × β) → α → Option β
  | [], _ => none
  | (k1, v) :: rest, k => if k = k1 then some v else lookupAL rest k

/-- Insertion into an association list, replacing the first binding of the
key if present (last write wins for the represented map). -/
def insertAL [DecidableEq α] (k : α) (v : β) : List (α × β) → List (α × β)
  | [] => [(k, v)]
  | (k1, v1) :: rest => if k = k1 then (k, v) :: rest else (k1, v1) :: insertAL k v rest

/-- Modelled from the spec: one section's worth of explicit lot definitions,
a map from lot name to aliquot-set string (spec section 3, LotDefinitions).
The lot-definition module is missing from the sources. -/
abbrev LotDefinitions : Type := List (String × String)

/-- Modelled from the spec: lot definitions for one township, keyed by
section number (spec section 3, TwpLotDefinitions). -/
abbrev TwpLotDefinitions : Type := List (Nat × LotDefinitions)

/-- Modelled from the spec: the Lot Definition Store, keyed by twprge key
(spec section 3, LotDefDB). -/
abbrev LotDefDB : Type := List (String × TwpLotDefinitions)

/-- Modelled from the spec: explicit lookup only, three-level walk, `none`
if any level is absent (spec section 4.2). -/
def get_definition (db : LotDefDB) (twprge : String) (sec : Nat) (lot : String) :
    Option String :=
  match lookupAL db twprge with
  | none => none
  | some tld =>
    match lookupAL tld sec with
    | none => none
    | some ld => lookupAL ld lot

/-- Modelled from the spec: true iff a TwpLotDefinitions entry exists for
this twprge and it has a non-empty LotDefinitions for this section
(spec section 4.2). -/
def has_any_explicit_lots (db : LotDefDB) (twprge : String) (sec : Nat) : Bool :=
  match lookupAL db twprge with
  | none => false
  | some tld =>
    match lookupAL tld sec with
    | none => false
    | some ld => !ld.isEmpty

/-- The sections of a standard township that bear lots (spec section 4.3). -/
def lotSections : List Nat := [1, 2, 3, 4, 5, 6, 7, 18, 19, 30, 31]

/-- Modelled from the spec: the static default-lot table, keyed by
(section number, lot number), reproducing the conventional General Land
Office layout of a standard township (spec section 4.3): sections 1 to 5
carry lots 1 to 4 along the north edge, the northwest corner section 6
carries lots 1 to 7 along its north and west edges, and the west-column
sections 7, 18, 19, 30, 31 carry lots 1 to 4 along the west edge. -/
def defaultLotQQ (sec lot : Nat) : Option QQ :=
  if sec = 6 then
    match lot with
    | 1 => some .NENE
    | 2 => some .NWNE
    | 3 => some .NENW
    | 4 => some .NWNW
    | 5 => some .SWNW
    | 6 => some .NWSW
    | 7 => some .SWSW
    | _ => none
  else if 1 ≤ sec ∧ sec ≤ 5 then
    match lot with
    | 1 => some .NENE
    | 2 => some .NWNE
    | 3 => some .NENW
    | 4 => some .NWNW
    | _ => none
  else if sec = 7 ∨ sec = 18 ∨ sec = 19 ∨ sec = 30 ∨ sec = 31 then
    match lot with
    | 1 => some .NWNW
    | 2 => some .SWNW
    | 3 => some .NWSW
    | 4 => some .SWSW
    | _ => none
  else none

/-- Parsing a run of decimal digits, rejecting any non-digit character. -/
def natOfDigitsAux (acc : Nat) : List Char → Option Nat
  | [] => some acc
  | c :: rest =>
    if c.isDigit then natOfDigitsAux (acc * 10 + (c.toNat - 48)) rest else none

/-- Parsing a non-empty run of decimal digits into a natural number. -/
def natOfDigits (cs : List Char) : Option Nat :=
  if cs.isEmpty then none else natOfDigitsAux 0 cs

/-- Modelled from the spec: the numeric value of a normalized lot
identifier, numeric and optionally L-prefixed (spec sections 3 and 6). -/
def lotNumber (lot : String) : Option Nat :=
  match lot.data with
  | 'L' :: rest => natOfDigits rest
  | cs => natOfDigits cs

/-- Modelled from the spec: the result of a lot-resolution request
(spec section 4.4). -/
inductive Resolution where
  | Resolved (cells : Finset QQ)
  | Unresolved
  deriving DecidableEq

/-- Modelled from the spec: the Lot Resolver (spec section 4.4).  An
explicit definition, if present, is run through the decomposer (a decode
error counts as Unresolved); otherwise the default table applies only when
the caller opts in and no explicit lot at all exists for the section;
otherwise the request is Unresolved. -/
def resolve (db : LotDefDB) (twprge : String) (sec : Nat) (lot : String)
    (allow_defaults : Bool) : Resolution :=
  match get_definition db twprge sec lot with
  | some aliq =>
    match decompose aliq with
    | some cells => .Resolved cells
    | none => .Unresolved
  | none =>
    if allow_defaults && !has_any_explicit_lots db twprge sec then
      match lotNumber lot with
      | some n =>
        match defaultLotQQ sec n with
        | some q => .Resolved {q}
        | none => .Unresolved
      | none => .Unresolved
    else .Unresolved

/-- Splitting off the last character of a character list. -/
def splitLast : List Char → Option (List Char × Char)
  | [] => none
  | [c] => some ([], c)
  | c :: rest =>
    match splitLast rest with
    | some (i, l) => some (c :: i, l)
    | none => none

/-- All characters are decimal digits. -/
def allDigits (cs : List Char) : Bool := cs.all Char.isDigit

/-- Modelled from the spec: well-formedness of the twp column, one to three
digits followed by a lowercase n or s (spec section 6). -/
def isTwpStr (s : String) : Bool :=
  match splitLast s.data with
  | some (ds, c) =>
    (c = 'n' || c = 's') && allDigits ds && decide (1 ≤ ds.length) && decide (ds.length ≤ 3)
  | none => false

/-- Modelled from the spec: well-formedness of the rge column, one to three
digits followed by a lowercase e or w (spec section 6). -/
def isRgeStr (s : String) : Bool :=
  match splitLast s.data with
  | some (ds, c) =>
    (c = 'e' || c = 'w') && allDigits ds && decide (1 ≤ ds.length) && decide (ds.length ≤ 3)
  | none => false

/-- The integer value of the sec column. -/
def secNum (s : String) : Option Nat := natOfDigits s.data

/-- Modelled from the spec: well-formedness of the sec column, an integer
from 1 to 36 (spec section 6). -/
def isSecStr (s : String) : Bool :=
  match secNum s with
  | some n => decide (1 ≤ n) && decide (n ≤ 36)
  | none => false

/-- Modelled from the spec: well-formedness of the lot column, an integer
with an optional leading L (spec section 6). -/
def isLotStr (s : String) : Bool := (lotNumber s).isSome

/-- Modelled from the spec: well-formedness of the qq column, an aliquot-set
string of the decomposer grammar (spec section 6). -/
def isQQStr (s : String) : Bool := (decompose s).isSome

/-- Modelled from the spec: the lot name under which a row is stored, the
lot column with its optional leading L made mandatory (spec sections 3
and 6, normalized lot identifiers). -/
def normalizeLotName (s : String) : String :=
  match s.data with
  | 'L' :: _ => s
  | _ => "L" ++ s

/-- Modelled from the spec: one row of the tabular bulk-import format of
the Lot Definition Store (spec section 6), five mandatory columns. -/
structure CsvRow where
  twp : String
  rge : String
  sec : String
  lot : String
  qq : String
  deriving DecidableEq, Repr

/-- Modelled from the spec: well-formedness of a whole import row
(spec section 6). -/
def wellFormedRow (r : CsvRow) : Bool :=
  isTwpStr r.twp && isRgeStr r.rge && isSecStr r.sec && isLotStr r.lot && isQQStr r.qq

/-- The twprge key under which a row is stored, e.g. 154n ++ 97w. -/
def rowKey (r : CsvRow) : String := r.twp ++ r.rge

/-- Modelled from the spec: importing one tabular row into the Lot
Definition Store (spec sections 4.2 and 6): a malformed row is skipped, a
well-formed row writes its qq string at twprge, section, lot, last write
winning. -/
def loadRow (db : LotDefDB) (r : CsvRow) : LotDefDB :=
  match secNum r.sec with
  | none => db
  | some n =>
    if wellFormedRow r then
      let k := rowKey r
      let tld := (lookupAL db k).getD []
      let ld := (lookupAL tld n).getD []
      insertAL k (insertAL n (insertAL (normalizeLotName r.lot) r.qq ld) tld) db
    else db

/-- Modelled from the spec: bulk import, row by row, each malformed row
skipped while the rest of the batch still applies (spec section 4.2). -/
def loadRows (db : LotDefDB) (rows : List CsvRow) : LotDefDB :=
  rows.foldl loadRow db

/-- Modelled from the spec: the occupancy state of one section, the filled
QQ cells plus the ordered duplicate-free list of lots the resolver could
not map (spec section 3, SectionGrid). -/
structure SectionGrid where
  filled : Finset QQ
  unresolved_lots : List String
  deriving DecidableEq

/-- Modelled from the spec: a township grid assigns a section grid to every
section number (spec section 3, TownshipGrid). -/
abbrev TownshipGrid : Type := Nat → SectionGrid

/-- Modelled from the spec: a parsed tract as consumed from the external
description parser, exposing its township-range and section identifiers,
its resolved aliquot strings and its lot identifiers (spec section 6,
ParsedTract). -/
structure ParsedTract where
  twprge : String
  sec : Nat
  aliquots : List String
  lots : List String
  deriving DecidableEq, Repr

/-- Modelled from the spec: one entry of a Plat Queue (spec section 3,
FillRequest). -/
inductive FillRequest where
  | tract (t : ParsedTract)
  | section_grid (sg : SectionGrid) (at_section : Nat)
  | direct_qq_fill (sec : Nat) (q : QQ)
  deriving DecidableEq

/-- Modelled from the spec: an ordered list of fill requests destined for a
single township (spec section 3, PlatQueue). -/
abbrev PlatQueue : Type := List FillRequest

/-- Modelled from the spec: the Multi-Plat Queue, a map from twprge key to
Plat Queue (spec section 3, MultiPlatQueue). -/
abbrev MultiPlatQueue : Type := List (String × PlatQueue)

/-- Appending an element to a list unless already present: insertion order
preserved, duplicates suppressed. -/
def insertIfAbsent (l : List String) (x : String) : List String :=
  if x ∈ l then l else l ++ [x]

/-- Modelled from the spec: the set of QQ cells a tract fills, the union of
the decomposed aliquot items (items with a decode error dropped) and the
resolved lot items (spec section 4.5, tract case). -/
def tractCells (db : LotDefDB) (twprge : String) (allow : Bool) (t : ParsedTract) :
    Finset QQ :=
  t.aliquots.foldr
      (fun a acc => match decompose a with | some s => s ∪ acc | none => acc) ∅
    ∪ t.lots.foldr
      (fun l acc =>
        match resolve db twprge t.sec l allow with
        | .Resolved s => s ∪ acc
        | .Unresolved => acc) ∅

/-- Modelled from the spec: the lot items of a tract that the resolver
leaves unresolved, in tract order (spec section 4.5, tract case). -/
def tractUnresolvedLots (db : LotDefDB) (twprge : String) (allow : Bool)
    (t : ParsedTract) : List String :=
  t.lots.filter (fun l => decide (resolve db twprge t.sec l allow = .Unresolved))

/-- Pointwise update of one section of a township grid. -/
def updateSec (g : TownshipGrid) (s : Nat) (f : SectionGrid → SectionGrid) :
    TownshipGrid :=
  fun s2 => if s2 = s then f (g s2) else g s2

/-- Modelled from the spec: one step of the Queue Executor (spec section
4.5): a tract fills its decomposed and resolved cells and records its
unresolved lots deduplicated; a section-grid merge unions filled cells and
concatenates unresolved lots deduplicated; a direct QQ fill marks the one
cell; a request naming a section outside 1 to 36 is skipped. -/
def applyRequest (db : LotDefDB) (allow : Bool) (twprge : String)
    (g : TownshipGrid) : FillRequest → TownshipGrid
  | .tract t =>
    if 1 ≤ t.sec ∧ t.sec ≤ 36 then
      updateSec g t.sec (fun sg =>
        { filled := sg.filled ∪ tractCells db twprge allow t,
          unresolved_lots :=
            (tractUnresolvedLots db twprge allow t).foldl insertIfAbsent
              sg.unresolved_lots })
    else g
  | .section_grid sg s =>
    if 1 ≤ s ∧ s ≤ 36 then
      updateSec g s (fun old =>
        { filled := old.filled ∪ sg.filled,
          unresolved_lots :=
            sg.unresolved_lots.foldl insertIfAbsent old.unresolved_lots })
    else g
  | .direct_qq_fill s q =>
    if 1 ≤ s ∧ s ≤ 36 then
      updateSec g s (fun old => { old with filled := old.filled ∪ {q} })
    else g

/-- Modelled from the spec: a township grid with every section created
empty (spec section 3, lifecycle). -/
def freshGrid : TownshipGrid := fun _ => { filled := ∅, unresolved_lots := [] }

/-- Modelled from the spec: the Queue Executor drains a Plat Queue against
a township grid in order (spec section 4.5). -/
def executeQueue (db : LotDefDB) (allow : Bool) (twprge : String)
    (g : TownshipGrid) (pq : PlatQueue) : TownshipGrid :=
  pq.foldl (applyRequest db allow twprge) g

/-- Modelled from the spec: executing a Multi-Plat Queue, each keyed Plat
Queue drained against a fresh grid for its township (spec section 4.5). -/
def executeMPQ (db : LotDefDB) (allow : Bool) (mpq : MultiPlatQueue) :
    List (String × TownshipGrid) :=
  mpq.map (fun e => (e.1, executeQueue db allow e.1 freshGrid e.2))

/-- Modelled from the spec: the resolution report, everything left
unresolved after a queue execution, by twprge key and section, insertion
order preserved (spec section 6, resolution report). -/
def resolutionReport (db : LotDefDB) (allow : Bool) (mpq : MultiPlatQueue)
    (k : String) (s : Nat) : List String :=
  match lookupAL (executeMPQ db allow mpq) k with
  | some g => (g s).unresolved_lots
  | none => []

/-- Modelled from the spec: the unresolved-lot names one fill request
contributes to one section, in request order (spec section 4.5): a tract
contributes its unresolvable lots, a section-grid merge contributes the
merged grid's recorded unresolved lots, a direct QQ fill contributes
nothing; a request naming a section outside 1 to 36 is skipped. -/
def requestUnresolvedAt (db : LotDefDB) (allow : Bool) (k : String) (s : Nat) :
    FillRequest → List String
  | .tract t =>
    if s = t.sec ∧ 1 ≤ t.sec ∧ t.sec ≤ 36 then tractUnresolvedLots db k allow t
    else []
  | .section_grid sg n =>
    if s = n ∧ 1 ≤ n ∧ n ≤ 36 then sg.unresolved_lots else []
  | .direct_qq_fill _ _ => []

/-- The unresolved-lot encounter sequence of a whole Plat Queue at one
section, in execution order. -/
def queueUnresolvedAt (db : LotDefDB) (allow : Bool) (k : String) (s : Nat) :
    PlatQueue → List String
  | [] => []
  | r :: rest =>
    requestUnresolvedAt db allow k s r ++ queueUnresolvedAt db allow k s rest

/-- The first-occurrence subsequence of a list of names: each name is kept
at its first occurrence only, preserving insertion order. -/
def dedupKeepFirst (xs : List String) : List String :=
  xs.foldl insertIfAbsent []

/-- Modelled from the spec: an object addable to a Multi-Plat Queue: a
parsed tract, a whole parsed description (a list of parsed tracts), a raw
section grid, or a raw township grid (spec section 3, MultiPlatQueue). -/
inductive QueueItem where
  | tract (t : ParsedTract)
  | desc (tracts : List ParsedTract)
  | sec_grid (sg : SectionGrid) (at_section : Nat)
  | twp_grid (tg : TownshipGrid)

/-- Appending fill requests to the Plat Queue stored under a key, creating
the entry if absent. -/
def appendAL : MultiPlatQueue → String → List FillRequest → MultiPlatQueue
  | [], k, rs => [(k, rs)]
  | (k1, q) :: rest, k, rs =>
    if k = k1 then (k1, q ++ rs) :: rest else (k1, q) :: appendAL rest k rs

/-- The fill requests a raw township grid contributes, one section-grid
merge per section. -/
def twpGridRequests (tg : TownshipGrid) : List FillRequest :=
  (List.range 36).map (fun i => FillRequest.section_grid (tg (i + 1)) (i + 1))

/-- Modelled from the spec: the error reported when a raw grid object is
added to a Multi-Plat Queue without a twprge key (spec section 3,
MultiPlatQueue: ambiguous placement). -/
def twprgeRequiredError : String := "twprge key required for raw grid objects"

/-- Modelled from the spec: adding an object to a Multi-Plat Queue (spec
section 3, MultiPlatQueue): a parsed tract without an explicit key is
routed by its own parsed township-range; a parsed description is always
routed tract by tract by the tracts own township-ranges; a raw section or
township grid without a key is rejected. -/
def queue_add (mpq : MultiPlatQueue) (item : QueueItem) (twprge : Option String) :
    Except String MultiPlatQueue :=
  match item, twprge with
  | .tract t, none => .ok (appendAL mpq t.twprge [.tract t])
  | .tract t, some k => .ok (appendAL mpq k [.tract t])
  | .desc ts, _ => .ok (ts.foldl (fun m t => appendAL m t.twprge [.tract t]) mpq)
  | .sec_grid _ _, none => .error twprgeRequiredError
  | .sec_grid sg s, some k => .ok (appendAL mpq k [.section_grid sg s])
  | .twp_grid _, none => .error twprgeRequiredError
  | .twp_grid tg, some k => .ok (appendAL mpq k (twpGridRequests tg))

/-- The Plat Queue stored under a key, empty if the key is absent. -/
def lookupPQ (mpq : MultiPlatQueue) (k : String) : PlatQueue :=
  (lookupAL mpq k).getD []

/-- Modelled from the spec: queueing raw land-description text, which
parses the text with the external parser under the given config and adds
the resulting parsed description (tests readme, queue_add_text: the two
are functionally equivalent).  The external parser is abstracted as a
function parameter. -/
def queue_add_text (parse : String → String → List ParsedTract)
    (mpq : MultiPlatQueue) (text config : String) : Except String MultiPlatQueue :=
  queue_add mpq (.desc (parse text config)) none

/-- Modelled from the spec: the ValueError reported when a Plat is handed
land of a different township-range than the one it holds (plat.rst). -/
def twprgeMismatchError : String := "ValueError: Plat accepts only a single Twp/Rge"

/-- Modelled from the spec: a Plat accepts lands for exactly one
township-range; the township-range is set by the first tract added if not
set at init (plat.rst). -/
structure Plat where
  twprge : Option String
  queue : PlatQueue

/-- Modelled from the spec: adding one parsed tract to a Plat (plat.rst):
sets the township-range if unset, raises ValueError if the tract bears a
different township-range than the one held. -/
def add_tract (p : Plat) (t : ParsedTract) : Except String Plat :=
  match p.twprge with
  | none => .ok { twprge := some t.twprge, queue := p.queue ++ [.tract t] }
  | some k =>
    if t.twprge = k then .ok { twprge := some k, queue := p.queue ++ [.tract t] }
    else .error twprgeMismatchError

/-- Modelled from the spec: adding several parsed tracts to a Plat in
order, stopping at the first ValueError (plat.rst). -/
def add_tracts (p : Plat) : List ParsedTract → Except String Plat
  | [] => .ok p
  | t :: ts =>
    match add_tract p t with
    | .ok p2 => add_tracts p2 ts
    | .error e => .error e

/-- Modelled from the spec: adding the full text of a land description to a
Plat, parsed by the external parser, then added tract by tract
(plat.rst).  The external parser is abstracted as a function parameter. -/
def add_description (parse : String → String → List ParsedTract) (p : Plat)
    (text config : String) : Except String Plat :=
  add_tracts p (parse text config)

/-- The round-trip row of the spec: (154n, 97w, 1, L1, NWNE). -/
def sampleRow : CsvRow := { twp := "154n", rge := "97w", sec := "1", lot := "L1", qq := "NWNE" }

/-- A section with no explicit lot at all yields no explicit definition for
any lot: the three-level walk dead-ends at the latest at the empty
LotDefinitions. -/
lemma get_definition_eq_none_of_no_explicit (db : LotDefDB) (k : String)
    (s : Nat) (lot : String) (h : has_any_explicit_lots db k s = false) :
    get_definition db k s lot = none := by
  unfold has_any_explicit_lots at h
  unfold get_definition
  cases h1 : lookupAL db k with
  | none => simp only [h1]
  | some tld =>
    simp only [h1] at h ⊢
    cases h2 : lookupAL tld s with
    | none => simp only [h2]
    | some ld =>
      simp only [h2] at h ⊢
      cases ld with
      | nil => rfl
      | cons hd tl => simp [List.isEmpty] at h

/-- Looking up a key right after inserting it finds the inserted value. -/
lemma lookupAL_insertAL_self [DecidableEq α] (m : List (α × β)) (k : α) (v : β) :
    lookupAL (insertAL k v m) k = some v := by
  induction m with
  | nil => simp [insertAL, lookupAL]
  | cons hd tl ih =>
    obtain ⟨k1, v1⟩ := hd
    by_cases h : k = k1
    · simp [insertAL, h, lookupAL]
    · simp [insertAL, h, lookupAL, ih]

/-- C1.  Override is all-or-nothing per section: whenever the Lot
Definition Store holds at least one explicit lot definition for a section,
any lot of that section without an explicit definition of its own resolves
to Unresolved even with allow_defaults set; the default table is never
consulted for that section. -/
theorem claim_C1_override_all_or_nothing (db : LotDefDB) (twprge : String)
    (sec : Nat) (lot : String)
    (hx : has_any_explicit_lots db twprge sec = true)
    (hnone : get_definition db twprge sec lot = none) :
    resolve db twprge sec lot true = .Unresolved := by
  unfold resolve
  rw [hnone, hx]
  rfl

/-- Witness for C1, the scenario of the spec: explicit lots L5 only for
section 1 of 154n97w; L1 is unresolved despite allow_defaults. -/
theorem claim_C1_witness :
    has_any_explicit_lots [("154n97w", [(1, [("L5", "SWNW")])])] "154n97w" 1 = true ∧
    resolve [("154n97w", [(1, [("L5", "SWNW")])])] "154n97w" 1 "L1" true = .Unresolved :=
  ⟨by decide,
    claim_C1_override_all_or_nothing [("154n97w", [(1, [("L5", "SWNW")])])]
      "154n97w" 1 "L1" (by decide) (by decide)⟩

/-- C2.  Default-lot fallback: in any township whose section 1 has no
explicit lot definitions, lots 1 to 4 resolve with allow_defaults to the
conventional GLO cells NENE, NWNE, NENW, NWNW; and the default table has
entries only for sections 1 to 7, 18, 19, 30 and 31. -/
theorem claim_C2_default_fallback :
    (∀ (db : LotDefDB) (k : String),
        has_any_explicit_lots db k 1 = false →
          resolve db k 1 "L1" true = .Resolved {QQ.NENE} ∧
          resolve db k 1 "L2" true = .Resolved {QQ.NWNE} ∧
          resolve db k 1 "L3" true = .Resolved {QQ.NENW} ∧
          resolve db k 1 "L4" true = .Resolved {QQ.NWNW}) ∧
    (∀ s l : Nat, (defaultLotQQ s l).isSome = true → s ∈ lotSections) := by
  constructor
  · intro db k h
    refine ⟨?_, ?_, ?_, ?_⟩ <;>
      · unfold resolve
        rw [get_definition_eq_none_of_no_explicit db k 1 _ h, h]
        rfl
  · intro s l h
    unfold defaultLotQQ at h
    split_ifs at h with h6 h15 hw
    · subst h6; decide
    · simp only [lotSections, List.mem_cons]; omega
    · rcases hw with h7 | h18 | h19 | h30 | h31 <;> subst_vars <;> decide
    · simp at h

/-- Witness for C2: with an empty store, L1 of section 1 of 154n97w
resolves to NENE by default, and section 1 bears default lots. -/
theorem claim_C2_witness :
    resolve [] "154n97w" 1 "L1" true = .Resolved {QQ.NENE} ∧ 1 ∈ lotSections :=
  ⟨(claim_C2_default_fallback.1 [] "154n97w" rfl).1,
    claim_C2_default_fallback.2 1 1 (by decide)⟩

/-- C3.  Every successful default-table resolution yields exactly one QQ
cell: with no explicit definition for the section, allow_defaults set, and
the (section, lot) pair present in the default table, resolve returns a
Resolved set of cardinality exactly 1. -/
theorem claim_C3_default_single_qq (db : LotDefDB) (twprge : String)
    (sec : Nat) (lot : String) (n : Nat) (q : QQ)
    (h0 : has_any_explicit_lots db twprge sec = false)
    (h1 : lotNumber lot = some n)
    (h2 : defaultLotQQ sec n = some q) :
    resolve db twprge sec lot true = .Resolved {q} ∧ ({q} : Finset QQ).card = 1 := by
  refine ⟨?_, Finset.card_singleton q⟩
  unfold resolve
  rw [get_definition_eq_none_of_no_explicit db twprge sec lot h0, h0]
  show (match lotNumber lot with
    | some n =>
      match defaultLotQQ sec n with
      | some q => Resolution.Resolved {q}
      | none => Resolution.Unresolved
    | none => Resolution.Unresolved) = Resolution.Resolved {q}
  simp only [h1, h2]

/-- Witness for C3: section 1 lot L1 by default resolves to the singleton
NENE. -/
theorem claim_C3_witness :
    resolve [] "154n97w" 1 "L1" true = .Resolved {QQ.NENE} ∧
    ({QQ.NENE} : Finset QQ).card = 1 :=
  claim_C3_default_single_qq [] "154n97w" 1 "L1" 1 QQ.NENE (by decide) (by decide)
    (by decide)

/-- C6.  Tabular import round-trips losslessly for well-formed rows:
importing a well-formed row into any store and then querying the store at
the row's twprge key, section number and normalized lot name returns the
row's qq string unchanged. -/
theorem claim_C6_roundtrip (db : LotDefDB) (r : CsvRow) (n : Nat)
    (hw : wellFormedRow r = true) (hs : secNum r.sec = some n) :
    get_definition (loadRow db r) (rowKey r) n (normalizeLotName r.lot) = some r.qq := by
  unfold loadRow
  rw [hs]
  simp only [hw, if_true]
  unfold get_definition
  simp only [lookupAL_insertAL_self]

/-- Witness for C6: importing (154n, 97w, 1, L1, NWNE) then querying
get_definition at 154n97w, 1, L1 returns NWNE exactly. -/
theorem claim_C6_witness :
    wellFormedRow sampleRow = true ∧
    get_definition (loadRow [] sampleRow) "154n97w" 1 "L1" = some "NWNE" :=
  ⟨by decide, claim_C6_roundtrip [] sampleRow 1 (by decide) (by decide)⟩

/-- One executor step never empties a filled cell. -/
lemma applyRequest_filled_monotone (db : LotDefDB) (allow : Bool) (k : String)
    (g : TownshipGrid) (r : FillRequest) (s : Nat) (q : QQ)
    (h : q ∈ (g s).filled) : q ∈ ((applyRequest db allow k g r) s).filled := by
  cases r with
  | tract t =>
    by_cases hr : 1 ≤ t.sec ∧ t.sec ≤ 36
    · by_cases hs : s = t.sec
      · subst hs; simp [applyRequest, hr, updateSec, Finset.mem_union, h]
      · simp [applyRequest, hr, updateSec, hs, h]
    · simpa [applyRequest, hr] using h
  | section_grid sg n =>
    by_cases hr : 1 ≤ n ∧ n ≤ 36
    · by_cases hs : s = n
      · subst hs; simp [applyRequest, hr, updateSec, Finset.mem_union, h]
      · simp [applyRequest, hr, updateSec, hs, h]
    · simpa [applyRequest, hr] using h
  | direct_qq_fill n q2 =>
    by_cases hr : 1 ≤ n ∧ n ≤ 36
    · by_cases hs : s = n
      · subst hs; simp [applyRequest, hr, updateSec, Finset.mem_union, h]
      · simp [applyRequest, hr, updateSec, hs, h]
    · simpa [applyRequest, hr] using h

/-- Draining a whole queue never empties a filled cell. -/
lemma executeQueue_filled_monotone (db : LotDefDB) (allow : Bool) (k : String)
    (pq : PlatQueue) :
    ∀ (g : TownshipGrid) (s : Nat) (q : QQ),
      q ∈ (g s).filled → q ∈ ((executeQueue db allow k g pq) s).filled := by
  induction pq with
  | nil => intro g s q h; exact h
  | cons r rest ih =>
    intro g s q h
    exact ih (applyRequest db allow k g r)  s q
      (applyRequest_filled_monotone db allow k g r s q h)

/-- C4.  Queue execution is monotonic and idempotent on fills: no executor
step (and hence no queue execution) ever changes a cell from Filled back to
Empty, and executing the same FillRequest twice against a fresh grid
yields exactly the same set of Filled cells as executing it once. -/
theorem claim_C4_monotone_idempotent :
    (∀ (db : LotDefDB) (allow : Bool) (k : String) (g : TownshipGrid)
        (r : FillRequest) (s : Nat) (q : QQ),
        q ∈ (g s).filled → q ∈ ((applyRequest db allow k g r) s).filled) ∧
    (∀ (db : LotDefDB) (allow : Bool) (k : String) (g : TownshipGrid)
        (pq : PlatQueue) (s : Nat) (q : QQ),
        q ∈ (g s).filled → q ∈ ((executeQueue db allow k g pq) s).filled) ∧
    (∀ (db : LotDefDB) (allow : Bool) (k : String) (r : FillRequest) (s : Nat),
        ((executeQueue db allow k freshGrid [r, r]) s).filled
          = ((executeQueue db allow k freshGrid [r]) s).filled) := by
  refine ⟨applyRequest_filled_monotone, fun db allow k g pq => executeQueue_filled_monotone db allow k pq g, ?_⟩
  intro db allow k r s
  show ((applyRequest db allow k (applyRequest db allow k freshGrid r) r) s).filled
    = ((applyRequest db allow k freshGrid r) s).filled
  cases r with
  | tract t =>
    by_cases hr : 1 ≤ t.sec ∧ t.sec ≤ 36
    · by_cases hs : s = t.sec <;>
        simp [applyRequest, hr, updateSec, hs, freshGrid, Finset.union_self,
          Finset.empty_union]
    · simp [applyRequest, hr]
  | section_grid sg n =>
    by_cases hr : 1 ≤ n ∧ n ≤ 36
    · by_cases hs : s = n <;>
        simp [applyRequest, hr, updateSec, hs, freshGrid, Finset.union_self,
          Finset.empty_union]
    · simp [applyRequest, hr]
  | direct_qq_fill n q2 =>
    by_cases hr : 1 ≤ n ∧ n ≤ 36
    · by_cases hs : s = n <;>
        simp [applyRequest, hr, updateSec, hs, freshGrid, Finset.union_self,
          Finset.empty_union]
    · simp [applyRequest, hr]

/-- Witness for C4: a filled cell survives a further direct fill step. -/
theorem claim_C4_witness :
    QQ.NENE ∈ ((applyRequest [] false "154n97w"
      (fun _ => { filled := {QQ.NENE}, unresolved_lots := [] })
      (FillRequest.direct_qq_fill 1 QQ.NWNE)) 1).filled :=
  claim_C4_monotone_idempotent.1 [] false "154n97w"
    (fun _ => { filled := {QQ.NENE}, unresolved_lots := [] })
    (FillRequest.direct_qq_fill 1 QQ.NWNE) 1 QQ.NENE (by decide)

/-- Membership in a foldr of Finset unions is membership in some member. -/
lemma mem_foldr_union (sets : List (Finset QQ)) (q : QQ) :
    q ∈ sets.foldr (fun a b => a ∪ b) ∅ ↔ ∃ u ∈ sets, q ∈ u := by
  induction sets with
  | nil => simp
  | cons a as ih => simp [ih]

/-- The elements produced by a successful mapOption are exactly the images
of the input elements. -/
lemma mapOption_mem_iff (f : α → Option β) :
    ∀ (l : List α) (bs : List β), mapOption f l = some bs →
      ∀ b, b ∈ bs ↔ ∃ a ∈ l, f a = some b := by
  intro l
  induction l with
  | nil =>
    intro bs h b
    simp [mapOption] at h
    subst h
    simp
  | cons a as ih =>
    intro bs h b
    unfold mapOption at h
    cases hf : f a with
    | none => rw [hf] at h; exact absurd h (by simp)
    | some b0 =>
      rw [hf] at h
      cases hm : mapOption f as with
      | none => rw [hm] at h; exact absurd h (by simp)
      | some bs0 =>
        rw [hm] at h
        simp only [Option.some.injEq] at h
        subst h
        constructor
        · intro hb
          rcases List.mem_cons.mp hb with hb | hb
          · exact ⟨a, by simp, by rw [hf, hb]⟩
          · rcases (ih bs0 hm b).mp hb with ⟨x, hx, hfx⟩
            exact ⟨x, by simp [hx], hfx⟩
        · rintro ⟨x, hx, hfx⟩
          rcases List.mem_cons.mp hx with hx | hx
          · subst hx
            rw [hf] at hfx
            simp only [Option.some.injEq] at hfx
            subst hfx
            simp
          · exact List.mem_cons.mpr (Or.inr ((ih bs0 hm b).mpr ⟨x, hx, hfx⟩))

/-- The decomposer computes the set union of the per-term expansions. -/
lemma decompose_mem_iff (s : String) (r : Finset QQ) (h : decompose s = some r)
    (q : QQ) :
    q ∈ r ↔ ∃ t ∈ splitComma s.data, ∃ u, decodeTerm t = some u ∧ q ∈ u := by
  unfold decompose at h
  cases hm : mapOption decodeTerm (splitComma s.data) with
  | none => rw [hm] at h; exact absurd h (by simp)
  | some sets =>
    rw [hm] at h
    simp only [Option.some.injEq] at h
    subst h
    rw [mem_foldr_union]
    constructor
    · rintro ⟨u, hu, hqu⟩
      rcases (mapOption_mem_iff decodeTerm _ sets hm u).mp hu with ⟨t, ht, hdt⟩
      exact ⟨t, ht, u, hdt, hqu⟩
    · rintro ⟨t, ht, u, hdt, hqu⟩
      exact ⟨u, (mapOption_mem_iff decodeTerm _ sets hm u).mpr ⟨t, ht, hdt⟩, hqu⟩

/-- C5.  Aliquot decomposer correctness: ALL expands to all 16 canonical QQ
names, NE to its 4 constituent cells, N2NE to the two northern cells of the
NE quarter, W2 to the 8 western cells of the section; and for every
comma-separated input the result is the idempotent set union of the
per-term expansions. -/
theorem claim_C5_decomposer :
    decompose "ALL" = some Finset.univ ∧
    Fintype.card QQ = 16 ∧
    decompose "NE" = some {QQ.NENE, QQ.NWNE, QQ.SENE, QQ.SWNE} ∧
    decompose "N2NE" = some {QQ.NENE, QQ.NWNE} ∧
    decompose "W2" = some {QQ.NENW, QQ.NWNW, QQ.SENW, QQ.SWNW,
      QQ.NESW, QQ.NWSW, QQ.SESW, QQ.SWSW} ∧
    (∀ (s : String) (r : Finset QQ), decompose s = some r →
      ∀ q : QQ, q ∈ r ↔ ∃ t ∈ splitComma s.data, ∃ u, decodeTerm t = some u ∧ q ∈ u) :=
  ⟨by decide, by decide, by decide, by decide, by decide, decompose_mem_iff⟩

/-- Witness for C5: on the duplicate-listing input NE,NE the result is
still the plain idempotent union of the term expansions. -/
theorem claim_C5_witness :
    QQ.SENE ∈ ({QQ.NENE, QQ.NWNE, QQ.SENE, QQ.SWNE} : Finset QQ) ↔
      ∃ t ∈ splitComma ("NE,NE".data), ∃ u, decodeTerm t = some u ∧ QQ.SENE ∈ u :=
  claim_C5_decomposer.2.2.2.2.2 "NE,NE" {QQ.NENE, QQ.NWNE, QQ.SENE, QQ.SWNE}
    (by decide) QQ.SENE

/-- Appending under a key leaves the requests of that key's Plat Queue
extended exactly by the appended requests. -/
lemma lookupPQ_appendAL (mpq : MultiPlatQueue) (k : String)
    (rs : List FillRequest) :
    lookupPQ (appendAL mpq k rs) k = lookupPQ mpq k ++ rs := by
  induction mpq with
  | nil => simp [appendAL, lookupPQ, lookupAL]
  | cons hd tl ih =>
    obtain ⟨k1, q⟩ := hd
    by_cases h : k = k1
    · subst h; simp [appendAL, lookupPQ, lookupAL]
    · simp only [lookupPQ] at ih
      simp [appendAL, h, lookupPQ, lookupAL, ih]

/-- C7.  Multi-Plat Queue routing: a ParsedTract added without an explicit
twprge key is routed into the Plat Queue keyed by the tract's own parsed
township-range; a raw SectionGrid or TownshipGrid added without a key is
rejected with an error, and succeeds once a key is supplied. -/
theorem claim_C7_queue_routing :
    (∀ (mpq : MultiPlatQueue) (t : ParsedTract),
        queue_add mpq (.tract t) none = .ok (appendAL mpq t.twprge [.tract t]) ∧
        lookupPQ (appendAL mpq t.twprge [.tract t]) t.twprge
          = lookupPQ mpq t.twprge ++ [.tract t]) ∧
    (∀ (mpq : MultiPlatQueue) (sg : SectionGrid) (s : Nat),
        queue_add mpq (.sec_grid sg s) none = .error twprgeRequiredError) ∧
    (∀ (mpq : MultiPlatQueue) (tg : TownshipGrid),
        queue_add mpq (.twp_grid tg) none = .error twprgeRequiredError) ∧
    (∀ (mpq : MultiPlatQueue) (sg : SectionGrid) (s : Nat) (k : String),
        ∃ m, queue_add mpq (.sec_grid sg s) (some k) = .ok m) ∧
    (∀ (mpq : MultiPlatQueue) (tg : TownshipGrid) (k : String),
        ∃ m, queue_add mpq (.twp_grid tg) (some k) = .ok m) := by
  refine ⟨?_, ?_, ?_, ?_, ?_⟩
  · intro mpq t
    exact ⟨rfl, lookupPQ_appendAL mpq t.twprge [.tract t]⟩
  · intro mpq sg s; rfl
  · intro mpq tg; rfl
  · intro mpq sg s k; exact ⟨appendAL mpq k [.section_grid sg s], rfl⟩
  · intro mpq tg k; exact ⟨appendAL mpq k (twpGridRequests tg), rfl⟩

/-- C9.  Text-queueing equivalence: queueing raw description text under a
parser config produces exactly the queue state obtained by first parsing
the text into a parsed description with the same config and then adding
that object with queue_add; concretely, every parsed tract is folded into
the Plat Queue of its own township-range. -/
theorem claim_C9_text_equivalence :
    ∀ (parse : String → String → List ParsedTract) (mpq : MultiPlatQueue)
      (text config : String),
      queue_add_text parse mpq text config
          = queue_add mpq (.desc (parse text config)) none ∧
      queue_add_text parse mpq text config
          = .ok ((parse text config).foldl
              (fun m t => appendAL m t.twprge [.tract t]) mpq) := by
  intro parse mpq text config
  exact ⟨rfl, rfl⟩

/-- A successful add_tract never changes a township-range already held. -/
lemma add_tract_twprge_of_ok (p p2 : Plat) (t : ParsedTract) (k : String)
    (hp : p.twprge = some k) (h : add_tract p t = .ok p2) :
    p2.twprge = some k := by
  unfold add_tract at h
  rw [hp] at h
  by_cases ht : t.twprge = k
  · simp only [ht, if_true, Except.ok.injEq] at h
    rw [← h]
  · simp [ht] at h

/-- Adding a list of tracts among which one bears a foreign township-range
always ends in the ValueError. -/
lemma add_tracts_error_of_mem (ts : List ParsedTract) :
    ∀ (p : Plat) (t : ParsedTract) (k : String),
      p.twprge = some k → t ∈ ts → t.twprge ≠ k →
      add_tracts p ts = .error twprgeMismatchError := by
  induction ts with
  | nil => intro p t k _ hm; exact absurd hm (by simp)
  | cons a as ih =>
    intro p t k hp hm hne
    unfold add_tracts
    by_cases ha : a.twprge = k
    · have hok : add_tract p a
          = .ok { twprge := some k, queue := p.queue ++ [.tract a] } := by
        unfold add_tract
        rw [hp]
        simp [ha]
      rw [hok]
      rcases List.mem_cons.mp hm with h | h
      · subst h; exact absurd ha hne
      · exact ih _ t k rfl h hne
    · have herr : add_tract p a = .error twprgeMismatchError := by
        unfold add_tract
        rw [hp]
        simp [ha]
      rw [herr]

/-- C10.  A Plat accepts lands for exactly one township-range: every add
operation (add_tract, add_tracts, add_description) handed land bearing a
township-range different from the one already held raises the ValueError
instead of platting the land. -/
theorem claim_C10_single_twprge :
    (∀ (p : Plat) (t : ParsedTract) (k : String),
        p.twprge = some k → t.twprge ≠ k →
        add_tract p t = .error twprgeMismatchError) ∧
    (∀ (ts : List ParsedTract) (p : Plat) (t : ParsedTract) (k : String),
        p.twprge = some k → t ∈ ts → t.twprge ≠ k →
        add_tracts p ts = .error twprgeMismatchError) ∧
    (∀ (parse : String → String → List ParsedTract) (p : Plat)
        (text config : String) (t : ParsedTract) (k : String),
        p.twprge = some k → t ∈ parse text config → t.twprge ≠ k →
        add_description parse p text config = .error twprgeMismatchError) := by
  refine ⟨?_, ?_, ?_⟩
  · intro p t k hp hne
    unfold add_tract
    rw [hp]
    simp [hne]
  · intro ts p t k hp hm hne
    exact add_tracts_error_of_mem ts p t k hp hm hne
  · intro parse p text config t k hp hm hne
    exact add_tracts_error_of_mem (parse text config) p t k hp hm hne

/-- Witness for C10: a Plat holding 154n97w rejects a 153n96w tract. -/
theorem claim_C10_witness :
    add_tract { twprge := some "154n97w", queue := [] }
        { twprge := "153n96w", sec := 1, aliquots := [], lots := [] }
      = .error twprgeMismatchError :=
  claim_C10_single_twprge.1 { twprge := some "154n97w", queue := [] }
    { twprge := "153n96w", sec := 1, aliquots := [], lots := [] }
    "154n97w" rfl (by decide)

/-- Appending-unless-present always makes (or keeps) the element a member. -/
lemma mem_insertIfAbsent_self (l : List String) (x : String) :
    x ∈ insertIfAbsent l x := by
  unfold insertIfAbsent
  split
  · assumption
  · simp

/-- Appending-unless-present keeps all existing members. -/
lemma mem_insertIfAbsent_of_mem (l : List String) (x y : String) (h : y ∈ l) :
    y ∈ insertIfAbsent l x := by
  unfold insertIfAbsent
  split
  · exact h
  · simp [h]

/-- Appending-unless-present preserves freedom from duplicates. -/
lemma nodup_insertIfAbsent (l : List String) (x : String) (h : l.Nodup) :
    (insertIfAbsent l x).Nodup := by
  unfold insertIfAbsent
  split
  · exact h
  · simp [List.nodup_append, h]
    assumption

/-- Folding appending-unless-present preserves freedom from duplicates. -/
lemma nodup_foldl_insertIfAbsent (xs : List String) :
    ∀ init : List String, init.Nodup → (xs.foldl insertIfAbsent init).Nodup := by
  induction xs with
  | nil => intro init h; exact h
  | cons a as ih =>
    intro init h
    exact ih (insertIfAbsent init a) (nodup_insertIfAbsent init a h)

/-- Folding appending-unless-present keeps all initial members. -/
lemma mem_foldl_insertIfAbsent_init (xs : List String) :
    ∀ (init : List String) (x : String), x ∈ init →
      x ∈ xs.foldl insertIfAbsent init := by
  induction xs with
  | nil => intro init x h; exact h
  | cons a as ih =>
    intro init x h
    exact ih (insertIfAbsent init a) x (mem_insertIfAbsent_of_mem init a x h)

/-- Folding appending-unless-present records every folded element. -/
lemma mem_foldl_insertIfAbsent (xs : List String) :
    ∀ (init : List String) (x : String), x ∈ xs →
      x ∈ xs.foldl insertIfAbsent init := by
  induction xs with
  | nil => intro init x h; exact absurd h (by simp)
  | cons a as ih =>
    intro init x h
    rcases List.mem_cons.mp h with h | h
    · subst h
      exact mem_foldl_insertIfAbsent_init as (insertIfAbsent init x) x
        (mem_insertIfAbsent_self init x)
    · exact ih (insertIfAbsent init a) x h

/-- One executor step never drops a recorded unresolved lot. -/
lemma applyRequest_unres_monotone (db : LotDefDB) (allow : Bool) (k : String)
    (g : TownshipGrid) (r : FillRequest) (s : Nat) (l : String)
    (h : l ∈ (g s).unresolved_lots) :
    l ∈ ((applyRequest db allow k g r) s).unresolved_lots := by
  cases r with
  | tract t =>
    by_cases hr : 1 ≤ t.sec ∧ t.sec ≤ 36
    · by_cases hs : s = t.sec
      · subst hs
        simp [applyRequest, hr, updateSec]
        exact mem_foldl_insertIfAbsent_init _ _ l h
      · simp [applyRequest, hr, updateSec, hs, h]
    · simpa [applyRequest, hr] using h
  | section_grid sg n =>
    by_cases hr : 1 ≤ n ∧ n ≤ 36
    · by_cases hs : s = n
      · subst hs
        simp [applyRequest, hr, updateSec]
        exact mem_foldl_insertIfAbsent_init _ _ l h
      · simp [applyRequest, hr, updateSec, hs, h]
    · simpa [applyRequest, hr] using h
  | direct_qq_fill n q2 =>
    by_cases hr : 1 ≤ n ∧ n ≤ 36
    · by_cases hs : s = n
      · subst hs; simp [applyRequest, hr, updateSec, h]
      · simp [applyRequest, hr, updateSec, hs, h]
    · simpa [applyRequest, hr] using h

/-- Draining a whole queue never drops a recorded unresolved lot. -/
lemma executeQueue_unres_monotone (db : LotDefDB) (allow : Bool) (k : String)
    (pq : PlatQueue) :
    ∀ (g : TownshipGrid) (s : Nat) (l : String),
      l ∈ (g s).unresolved_lots →
      l ∈ ((executeQueue db allow k g pq) s).unresolved_lots := by
  induction pq with
  | nil => intro g s l h; exact h
  | cons r rest ih =>
    intro g s l h
    exact ih (applyRequest db allow k g r) s l
      (applyRequest_unres_monotone db allow k g r s l h)

/-- One executor step preserves duplicate-freedom of every section's
unresolved-lot list. -/
lemma applyRequest_unres_nodup (db : LotDefDB) (allow : Bool) (k : String)
    (g : TownshipGrid) (r : FillRequest)
    (h : ∀ s, ((g s).unresolved_lots).Nodup) :
    ∀ s, (((applyRequest db allow k g r) s).unresolved_lots).Nodup := by
  intro s
  cases r with
  | tract t =>
    by_cases hr : 1 ≤ t.sec ∧ t.sec ≤ 36
    · by_cases hs : s = t.sec
      · subst hs
        simp [applyRequest, hr, updateSec]
        exact nodup_foldl_insertIfAbsent _ _ (h _)
      · simp [applyRequest, hr, updateSec, hs, h s]
    · simpa [applyRequest, hr] using h s
  | section_grid sg n =>
    by_cases hr : 1 ≤ n ∧ n ≤ 36
    · by_cases hs : s = n
      · subst hs
        simp [applyRequest, hr, updateSec]
        exact nodup_foldl_insertIfAbsent _ _ (h _)
      · simp [applyRequest, hr, updateSec, hs, h s]
    · simpa [applyRequest, hr] using h s
  | direct_qq_fill n q2 =>
    by_cases hr : 1 ≤ n ∧ n ≤ 36
    · by_cases hs : s = n
      · subst hs; simp [applyRequest, hr, updateSec, h s]
      · simp [applyRequest, hr, updateSec, hs, h s]
    · simpa [applyRequest, hr] using h s

/-- Draining a whole queue preserves duplicate-freedom of every section's
unresolved-lot list. -/
lemma executeQueue_unres_nodup (db : LotDefDB) (allow : Bool) (k : String)
    (pq : PlatQueue) :
    ∀ (g : TownshipGrid), (∀ s, ((g s).unresolved_lots).Nodup) →
      ∀ s, (((executeQueue db allow k g pq) s).unresolved_lots).Nodup := by
  induction pq with
  | nil => intro g h; exact h
  | cons r rest ih =>
    intro g h
    exact ih (applyRequest db allow k g r) (applyRequest_unres_nodup db allow k g r h)

/-- A tract step records each of the tract's unresolvable lots. -/
lemma applyRequest_tract_records (db : LotDefDB) (allow : Bool) (k : String)
    (g : TownshipGrid) (t : ParsedTract) (l : String)
    (h1 : 1 ≤ t.sec) (h2 : t.sec ≤ 36) (hl : l ∈ t.lots)
    (hu : resolve db k t.sec l allow = .Unresolved) :
    l ∈ ((applyRequest db allow k g (.tract t)) t.sec).unresolved_lots := by
  have hr : 1 ≤ t.sec ∧ t.sec ≤ 36 := ⟨h1, h2⟩
  simp [applyRequest, hr, updateSec]
  apply mem_foldl_insertIfAbsent
  unfold tractUnresolvedLots
  rw [List.mem_filter]
  exact ⟨hl, by simp [hu]⟩

/-- Draining a queue containing a tract with an unresolvable lot records
that lot in the tract's section. -/
lemma executeQueue_tract_records (db : LotDefDB) (allow : Bool) (k : String)
    (pq : PlatQueue) :
    ∀ (g : TownshipGrid) (t : ParsedTract) (l : String),
      FillRequest.tract t ∈ pq → 1 ≤ t.sec → t.sec ≤ 36 → l ∈ t.lots →
      resolve db k t.sec l allow = .Unresolved →
      l ∈ ((executeQueue db allow k g pq) t.sec).unresolved_lots := by
  induction pq with
  | nil => intro g t l hm; exact absurd hm (by simp)
  | cons r rest ih =>
    intro g t l hm h1 h2 hl hu
    rcases List.mem_cons.mp hm with hm | hm
    · subst hm
      exact executeQueue_unres_monotone db allow k rest _ t.sec l
        (applyRequest_tract_records db allow k g t l h1 h2 hl hu)
    · exact ih (applyRequest db allow k g r) t l hm h1 h2 hl hu

/-- Looking up an executed Multi-Plat Queue gives exactly the execution of
the stored Plat Queue under the same key. -/
lemma lookupAL_executeMPQ (db : LotDefDB) (allow : Bool)
    (mpq : MultiPlatQueue) (k : String) :
    lookupAL (executeMPQ db allow mpq) k
      = (lookupAL mpq k).map (fun pq => executeQueue db allow k freshGrid pq) := by
  induction mpq with
  | nil => simp [executeMPQ, lookupAL]
  | cons hd tl ih =>
    obtain ⟨k1, q⟩ := hd
    by_cases h : k = k1
    · subst h; simp [executeMPQ, lookupAL]
    · simp only [executeMPQ, List.map_cons] at ih ⊢
      simp [lookupAL, h, ih]

/-- One executor step turns a section's unresolved-lot list into the fold
of appending-unless-present over the lots the request contributes there. -/
lemma applyRequest_unres_eq (db : LotDefDB) (allow : Bool) (k : String)
    (g : TownshipGrid) (r : FillRequest) (s : Nat) :
    ((applyRequest db allow k g r) s).unresolved_lots
      = (requestUnresolvedAt db allow k s r).foldl insertIfAbsent
          ((g s).unresolved_lots) := by
  cases r with
  | tract t =>
    by_cases hr : 1 ≤ t.sec ∧ t.sec ≤ 36
    · by_cases hs : s = t.sec
      · subst hs
        simp [applyRequest, hr, updateSec, requestUnresolvedAt, hr.1, hr.2]
      · simp [applyRequest, hr, updateSec, hs, requestUnresolvedAt]
    · have hcond : ¬(s = t.sec ∧ 1 ≤ t.sec ∧ t.sec ≤ 36) := by tauto
      simp [applyRequest, hr, requestUnresolvedAt, hcond]
  | section_grid sg n =>
    by_cases hr : 1 ≤ n ∧ n ≤ 36
    · by_cases hs : s = n
      · subst hs
        simp [applyRequest, hr, updateSec, requestUnresolvedAt, hr.1, hr.2]
      · simp [applyRequest, hr, updateSec, hs, requestUnresolvedAt]
    · have hcond : ¬(s = n ∧ 1 ≤ n ∧ n ≤ 36) := by tauto
      simp [applyRequest, hr, requestUnresolvedAt, hcond]
  | direct_qq_fill n q2 =>
    by_cases hr : 1 ≤ n ∧ n ≤ 36
    · by_cases hs : s = n
      · subst hs; simp [applyRequest, hr, updateSec, requestUnresolvedAt]
      · simp [applyRequest, hr, updateSec, hs, requestUnresolvedAt]
    · simp [applyRequest, hr, requestUnresolvedAt]

/-- Draining a whole queue turns a section's unresolved-lot list into the
fold of appending-unless-present over the queue's whole encounter sequence
for that section, in execution order. -/
lemma executeQueue_unres_eq (db : LotDefDB) (allow : Bool) (k : String)
    (pq : PlatQueue) :
    ∀ (g : TownshipGrid) (s : Nat),
      ((executeQueue db allow k g pq) s).unresolved_lots
        = (queueUnresolvedAt db allow k s pq).foldl insertIfAbsent
            ((g s).unresolved_lots) := by
  induction pq with
  | nil => intro g s; rfl
  | cons r rest ih =>
    intro g s
    show ((executeQueue db allow k (applyRequest db allow k g r) rest) s).unresolved_lots
      = _
    rw [ih (applyRequest db allow k g r) s, applyRequest_unres_eq]
    show _ = ((requestUnresolvedAt db allow k s r
        ++ queueUnresolvedAt db allow k s rest).foldl insertIfAbsent
          ((g s).unresolved_lots))
    rw [List.foldl_append]

/-- A fold of appending-unless-present is a subsequence of the initial
list followed by the folded list: relative order is preserved. -/
lemma sublist_foldl_insertIfAbsent (xs : List String) :
    ∀ init : List String, (xs.foldl insertIfAbsent init).Sublist (init ++ xs) := by
  induction xs with
  | nil => intro init; simp
  | cons a as ih =>
    intro init
    show ((as.foldl insertIfAbsent (insertIfAbsent init a))).Sublist (init ++ a :: as)
    unfold insertIfAbsent
    by_cases h : a ∈ init
    · rw [if_pos h]
      exact (ih init).trans
        (List.Sublist.append_left (List.sublist_cons_self a as) init)
    · rw [if_neg h]
      have h1 := ih (init ++ [a])
      rwa [List.append_assoc, List.singleton_append] at h1

/-- C8.  An unresolved lot is never raised as an error: queue execution is
a total function into grids plus a resolution report; every list of the
report is free of duplicates; every lot of a queued tract that the
resolver leaves Unresolved appears in the report under the queue's twprge
key and the tract's section; and insertion order is preserved: the report
is exactly the first-occurrence subsequence of the queue's unresolved-lot
encounter sequence in execution order, in particular a subsequence of that
encounter sequence. -/
theorem claim_C8_unresolved_reported :
    (∀ (db : LotDefDB) (allow : Bool) (mpq : MultiPlatQueue) (k : String) (s : Nat),
        (resolutionReport db allow mpq k s).Nodup) ∧
    (∀ (db : LotDefDB) (allow : Bool) (mpq : MultiPlatQueue) (k : String)
        (pq : PlatQueue) (t : ParsedTract) (l : String),
        lookupAL mpq k = some pq → FillRequest.tract t ∈ pq →
        1 ≤ t.sec → t.sec ≤ 36 → l ∈ t.lots →
        resolve db k t.sec l allow = .Unresolved →
        l ∈ resolutionReport db allow mpq k t.sec) ∧
    (∀ (db : LotDefDB) (allow : Bool) (mpq : MultiPlatQueue) (k : String)
        (pq : PlatQueue) (s : Nat),
        lookupAL mpq k = some pq →
        resolutionReport db allow mpq k s
          = dedupKeepFirst (queueUnresolvedAt db allow k s pq)) ∧
    (∀ (db : LotDefDB) (allow : Bool) (mpq : MultiPlatQueue) (k : String)
        (pq : PlatQueue) (s : Nat),
        lookupAL mpq k = some pq →
        (resolutionReport db allow mpq k s).Sublist
          (queueUnresolvedAt db allow k s pq)) := by
  have horder : ∀ (db : LotDefDB) (allow : Bool) (mpq : MultiPlatQueue)
      (k : String) (pq : PlatQueue) (s : Nat),
      lookupAL mpq k = some pq →
      resolutionReport db allow mpq k s
        = dedupKeepFirst (queueUnresolvedAt db allow k s pq) := by
    intro db allow mpq k pq s hk
    unfold resolutionReport
    rw [lookupAL_executeMPQ, hk]
    simp only [Option.map_some']
    rw [executeQueue_unres_eq db allow k pq freshGrid s]
    rfl
  refine ⟨?_, ?_, horder, ?_⟩
  · intro db allow mpq k s
    unfold resolutionReport
    rw [lookupAL_executeMPQ]
    cases hk : lookupAL mpq k with
    | none => simp
    | some pq =>
      simp only [Option.map_some']
      exact executeQueue_unres_nodup db allow k pq freshGrid
        (fun _ => List.nodup_nil) s
  · intro db allow mpq k pq t l hk hm h1 h2 hl hu
    unfold resolutionReport
    rw [lookupAL_executeMPQ, hk]
    simp only [Option.map_some']
    exact executeQueue_tract_records db allow k pq freshGrid t l hm h1 h2 hl hu
  · intro db allow mpq k pq s hk
    rw [horder db allow mpq k pq s hk]
    simpa [dedupKeepFirst] using
      sublist_foldl_insertIfAbsent (queueUnresolvedAt db allow k s pq) []

/-- Witness for C8: with no lot definitions and defaults disallowed, lots
L1 and L2 of section 9 of 154n97w surface in the resolution report rather
than erroring, and the report of the encounter sequence L1, L2, L1 keeps
first occurrences in insertion order: L1 then L2. -/
theorem claim_C8_witness :
    "L1" ∈ resolutionReport [] false
        [("154n97w",
          [FillRequest.tract
            { twprge := "154n97w", sec := 9, aliquots := [], lots := ["L1", "L2"] },
           FillRequest.tract
            { twprge := "154n97w", sec := 9, aliquots := [], lots := ["L1"] }])]
        "154n97w" 9 ∧
    resolutionReport [] false
        [("154n97w",
          [FillRequest.tract
            { twprge := "154n97w", sec := 9, aliquots := [], lots := ["L1", "L2"] },
           FillRequest.tract
            { twprge := "154n97w", sec := 9, aliquots := [], lots := ["L1"] }])]
        "154n97w" 9 = ["L1", "L2"] := by
  constructor
  · exact claim_C8_unresolved_reported.2.1 [] false
      [("154n97w",
        [FillRequest.tract
          { twprge := "154n97w", sec := 9, aliquots := [], lots := ["L1", "L2"] },
         FillRequest.tract
          { twprge := "154n97w", sec := 9, aliquots := [], lots := ["L1"] }])]
      "154n97w"
      [FillRequest.tract
        { twprge := "154n97w", sec := 9, aliquots := [], lots := ["L1", "L2"] },
       FillRequest.tract
        { twprge := "154n97w", sec := 9, aliquots := [], lots := ["L1"] }]
      { twprge := "154n97w", sec := 9, aliquots := [], lots := ["L1", "L2"] }
      "L1" (by decide) (by decide) (by decide) (by decide) (by decide) (by decide)
  · rw [claim_C8_unresolved_reported.2.2.1 [] false
      [("154n97w",
        [FillRequest.tract
          { twprge := "154n97w", sec := 9, aliquots := [], lots := ["L1", "L2"] },
         FillRequest.tract
          { twprge := "154n97w", sec := 9, aliquots := [], lots := ["L1"] }])]
      "154n97w"
      [FillRequest.tract
        { twprge := "154n97w", sec := 9, aliquots := [], lots := ["L1", "L2"] },
       FillRequest.tract
        { twprge := "154n97w", sec := 9, aliquots := [], lots := ["L1"] }]
      9 (by decide)]
    decide
